import Mathlib

/-!
# Verification of the zaamiflower order/catalog/auth/chat handlers

Shallow embedding of the flower-shop backend (Express server in
`server/src/index.js` and the serverless handlers under `api/`).
JavaScript numbers are modelled as `Rat` (finite values) resp. `Int`
where the code only ever holds integers; `NaN`/`Infinity` inputs are
modelled by a dedicated constructor where the code tests
`Number.isFinite`.  Timestamps (`createdAt` fields) and generated ids
are irrelevant to every property below; ids are passed in as explicit
parameters and timestamps are elided.
-/

deriving instance DecidableEq for Except

namespace ZaamiFlower

/-- Exact rational multiplication, written out via `Rat.normalize` so
that it evaluates inside the kernel (`Rat.mul` is `@[irreducible]`);
`qmul_eq_mul` below proves it equal to `·*·`. -/
def qmul (a b : Rat) : Rat :=
  Rat.normalize (a.num * b.num) (a.den * b.den) (Nat.mul_ne_zero a.den_nz b.den_nz)

/-- Exact rational addition (kernel-evaluable form of `·+·`, see
`qadd_eq_add`). -/
def qadd (a b : Rat) : Rat :=
  Rat.normalize (a.num * b.den + b.num * a.den) (a.den * b.den)
    (Nat.mul_ne_zero a.den_nz b.den_nz)

/-- `Number((x).toFixed(2))`: rounding to two decimal places, i.e.
`⌊x·100 + 1/2⌋ / 100`.  (JS `toFixed` rounds the decimal rendering of
the binary double; for the exact-arithmetic model we use round-half-up
on hundredths, which no property below depends on.) -/
def round2 (q : Rat) : Rat :=
  Rat.normalize (qadd (qmul q 100) (Rat.normalize 1 2)).floor 100

/-- A JavaScript number as produced by `Number(...)`: either a finite
value or `NaN`/`±Infinity` (collapsed, since the code only ever tests
`Number.isFinite`). -/
inductive JNum where
  | nan : JNum
  | val (q : Rat) : JNum
  deriving Repr, DecidableEq

/-- Catalog record (`data.flowers[i]` in `server/src/index.js`).  Stock is
kept as `Int`: the code never clamps it, so non-negativity is a theorem,
not a representation artifact. -/
structure Flower where
  id : String
  name : String
  description : String
  price : Rat
  occasion : String
  image : String
  imageFocusX : Rat
  imageFocusY : Rat
  stock : Int
  deriving Repr, DecidableEq

/-- One line item of a recorded order (`normalizedItems` entries). -/
structure OrderItem where
  flowerId : String
  name : String
  unitPrice : Rat
  quantity : Int
  lineTotal : Rat
  deriving Repr, DecidableEq

/-- Customer block of an order payload. -/
structure Customer where
  name : String
  email : String
  phone : String
  address : String
  deriving Repr, DecidableEq

/-- A recorded order (`data.orders[i]`). -/
structure Order where
  id : String
  customer : Customer
  paymentMethod : String
  paymentStatus : String
  items : List OrderItem
  total : Rat
  deriving Repr, DecidableEq

/-- The persistent store (`data` read by `readData()`). -/
structure Store where
  flowers : List Flower
  orders : List Order
  deriving Repr, DecidableEq

/-! ## Modelled string helpers (trim, lower-casing, regex checks, split) -/

/-- `String.prototype.trim()`: strip leading and trailing whitespace. -/
def jsTrim (s : String) : String :=
  ⟨((s.data.dropWhile Char.isWhitespace).reverse.dropWhile Char.isWhitespace).reverse⟩

/-- `String.prototype.toLowerCase()` (ASCII case mapping; the code only
compares against ASCII keywords). -/
def jsToLower (s : String) : String := ⟨s.data.map Char.toLower⟩

/-- Split a character list at every occurrence of `sep`
(`String.prototype.split` on a single character). -/
def splitOnChar (sep : Char) : List Char → List (List Char)
  | [] => [[]]
  | c :: rest =>
      let parts := splitOnChar sep rest
      if c = sep then [] :: parts
      else
        match parts with
        | [] => [[c]]
        | p :: ps => (c :: p) :: ps

/-- A character allowed by `[^\s@]` in `EMAIL_REGEX`. -/
def isEmailChar (c : Char) : Bool := !c.isWhitespace && c ≠ '@'

/-- `EMAIL_REGEX = /^[^\s@]+@[^\s@]+\.[^\s@]+$/`: exactly one `@`, a
non-empty local part, and a domain containing a `.` with at least one
character on each side. -/
def isValidEmail (s : String) : Bool :=
  match splitOnChar '@' s.data with
  | [localPart, domain] =>
      !localPart.isEmpty && localPart.all isEmailChar &&
      domain.all isEmailChar && (domain.drop 1).dropLast.contains '.'
  | _ => false

/-- ASCII fragment of JavaScript's `\s` character class. -/
def isJsSpace (c : Char) : Bool :=
  c = ' ' || c = '\t' || c = '\n' || c = '\r' || c = '\x0b' || c = '\x0c'

/-- A character allowed by `PHONE_REGEX = /^[0-9+\-\s()]{7,24}$/`. -/
def isPhoneChar (c : Char) : Bool :=
  c.isDigit || c = '+' || c = '-' || c = '(' || c = ')' || isJsSpace c

/-- `isValidPhone` (`server/src/index.js`): the trimmed value matches
`PHONE_REGEX` (allowed characters, length 7–24) and contains between 7
and 15 digit characters. -/
def isValidPhone (value : String) : Bool :=
  let cs := (jsTrim value).data
  decide (7 ≤ cs.length) && decide (cs.length ≤ 24) && cs.all isPhoneChar &&
  (let digits := (cs.filter Char.isDigit).length
   decide (7 ≤ digits) && decide (digits ≤ 15))

/-! ## Order payload normalization (`normalizeCartItems`, `normalizeOrderPayload`) -/

/-- A raw entry of the incoming `items` array: `String(item?.flowerId || "")`
and `Number(item?.quantity)` (already coerced; non-finite coercion
results are excluded by `Number.isInteger` just as a non-integral `Rat`
is). -/
structure RawCartItem where
  flowerId : String
  quantity : Rat
  deriving Repr, DecidableEq

/-- A merged cart entry: one per distinct flower id. -/
structure CartItem where
  flowerId : String
  quantity : Int
  deriving Repr, DecidableEq

/-- `Number.isInteger(q) && !(q <= 0) && !(q > 100)`. -/
def isValidCartQuantity (q : Rat) : Bool :=
  q.den == 1 && decide (0 < q.num) && decide (q.num ≤ 100)

/-- One `quantities.set(flowerId, (quantities.get(flowerId) || 0) + quantity)`
step.  A JS `Map` holds at most one entry per key, updates it in place,
and appends new keys in insertion order; the association list built here
has pairwise-distinct keys by construction, so updating the (unique)
matching entry models `Map.set` exactly. -/
def addCartQuantity : List CartItem → String → Int → List CartItem
  | [], fid, q => [⟨fid, q⟩]
  | e :: rest, fid, q =>
      if e.flowerId == fid then { e with quantity := e.quantity + q } :: rest
      else e :: addCartQuantity rest fid q

/-- Loop body of `normalizeCartItems`. -/
def normalizeCartItemsAux (acc : List CartItem) :
    List RawCartItem → Except String (List CartItem)
  | [] => .ok acc
  | item :: rest =>
      let fid := jsTrim item.flowerId
      if fid = "" ∨ ¬ isValidCartQuantity item.quantity then
        .error "invalid cart item payload"
      else
        normalizeCartItemsAux (addCartQuantity acc fid item.quantity.num) rest

/-- `normalizeCartItems` (`server/src/index.js`): validates each raw item
and merges quantities per distinct (trimmed) flower id. -/
def normalizeCartItems (items : List RawCartItem) : Except String (List CartItem) :=
  normalizeCartItemsAux [] items

/-- The parsed JSON body of `POST /api/orders`.  `none` models a
missing/`null`/non-object (resp. non-array) field. -/
structure OrderBody where
  customer : Option Customer
  items : Option (List RawCartItem)
  paymentMethod : Option String
  deriving Repr, DecidableEq

/-- Result of `normalizeOrderPayload`. -/
structure OrderPayload where
  customer : Customer
  paymentMethod : String
  paymentStatus : String
  items : List CartItem
  deriving Repr, DecidableEq

/-- `normalizePaymentMethod`: `String(value || "cash").trim().toLowerCase()`
must be `cash` or `paypal`. -/
def normalizePaymentMethod (value : Option String) : Option String :=
  let raw := match value with
    | none => "cash"
    | some s => if s = "" then "cash" else s
  let normalized := jsToLower (jsTrim raw)
  if normalized = "cash" ∨ normalized = "paypal" then some normalized else none

/-- `normalizeOrderPayload` (`server/src/index.js`): validates the
customer block (name length, email regex, phone, address length), the
items array and the payment method, merges the cart, and fixes
`paymentStatus := "pending"`. -/
def normalizeOrderPayload (body : OrderBody) : Except String OrderPayload :=
  match body.customer with
  | none => .error "customer details are required"
  | some c =>
      if (jsTrim c.name).length < 2 ∨ 120 < (jsTrim c.name).length then
        .error "customer.name must be between 2 and 120 characters"
      else if ¬ isValidEmail (jsToLower (jsTrim c.email)) then
        .error "customer.email is invalid"
      else if ¬ isValidPhone (jsTrim c.phone) then
        .error "customer.phone is invalid"
      else if (jsTrim c.address).length < 6 ∨ 240 < (jsTrim c.address).length then
        .error "customer.address must be between 6 and 240 characters"
      else
        match body.items with
        | none => .error "at least one cart item is required"
        | some rawItems =>
            if rawItems = [] then
              .error "at least one cart item is required"
            else
              match normalizePaymentMethod body.paymentMethod with
              | none => .error "paymentMethod must be cash or paypal"
              | some pm =>
                  match normalizeCartItems rawItems with
                  | .error msg => .error msg
                  | .ok cart =>
                      .ok { customer := ⟨jsTrim c.name, jsToLower (jsTrim c.email),
                                         jsTrim c.phone, jsTrim c.address⟩,
                            paymentMethod := pm,
                            paymentStatus := "pending",
                            items := cart }

/-! ## The order handler (`app.post("/api/orders")`) -/

/-- The HTTP outcome of `POST /api/orders`. -/
inductive OrderResult where
  | badRequest (message : String)
  | notFound (message : String)
  | conflict (message : String) (available : Int)
  | created (order : Order)
  deriving Repr, DecidableEq

/-- HTTP status of an order outcome. -/
def OrderResult.status : OrderResult → Nat
  | .badRequest _ => 400
  | .notFound _ => 404
  | .conflict _ _ => 409
  | .created _ => 201

/-- Whether the request produced a 201. -/
def OrderResult.isCreated : OrderResult → Bool
  | .created _ => true
  | _ => false

/-- `new Map(data.flowers.map((f) => [f.id, f])).get(fid)`: a JS `Map`
built from entries keeps the last entry per key. -/
def flowerMapGet (flowers : List Flower) (fid : String) : Option Flower :=
  flowers.reverse.find? (fun f => f.id == fid)

/-- The validation loop of the order handler: looks every merged item up,
fails 404 on an unknown id and 409 on insufficient stock, and otherwise
records the price/name snapshot line. -/
def buildOrderItems (flowers : List Flower) :
    List CartItem → Except OrderResult (List OrderItem)
  | [] => .ok []
  | item :: rest =>
      match flowerMapGet flowers item.flowerId with
      | none => .error (.notFound ("flower not found: " ++ item.flowerId))
      | some flower =>
          if flower.stock < item.quantity then
            .error (.conflict ("insufficient stock for " ++ flower.name) flower.stock)
          else
            match buildOrderItems flowers rest with
            | .error r => .error r
            | .ok tail =>
                .ok ({ flowerId := flower.id, name := flower.name,
                       unitPrice := flower.price, quantity := item.quantity,
                       lineTotal := round2 (qmul flower.price item.quantity) } :: tail)

/-- The mutation loop `flower.stock -= item.quantity` (flower ids in the
store are pairwise distinct whenever `Store.WF` holds, so updating every
match coincides with the JS in-place object mutation). -/
def decrementStock (flowers : List Flower) (items : List OrderItem) : List Flower :=
  items.foldl
    (fun fs item =>
      fs.map (fun f =>
        if f.id == item.flowerId then { f with stock := f.stock - item.quantity } else f))
    flowers

/-- `app.post("/api/orders")` (`server/src/index.js`): normalize the
payload, validate every merged line against current stock, then decrement
stock, total the lines and append the order record. -/
def postOrder (store : Store) (newId : String) (body : OrderBody) : Store × OrderResult :=
  match normalizeOrderPayload body with
  | .error msg => (store, .badRequest msg)
  | .ok payload =>
      match buildOrderItems store.flowers payload.items with
      | .error r => (store, r)
      | .ok items =>
          let flowers := decrementStock store.flowers items
          let total := round2 (items.foldl (fun s i => qadd s i.lineTotal) 0)
          let order : Order :=
            { id := newId, customer := payload.customer,
              paymentMethod := payload.paymentMethod,
              paymentStatus := payload.paymentStatus,
              items := items, total := total }
          ({ flowers := flowers, orders := store.orders ++ [order] }, .created order)

/-- Store well-formedness: non-negative stocks and pairwise-distinct
flower ids (every store reachable through the handlers satisfies it). -/
def Store.WF (s : Store) : Prop :=
  (∀ f ∈ s.flowers, 0 ≤ f.stock) ∧ (s.flowers.map Flower.id).Nodup

instance (s : Store) : Decidable s.WF := by
  unfold Store.WF; infer_instance

/-- All stocks non-negative, as a decidable check. -/
def allStocksNonneg (s : Store) : Bool :=
  s.flowers.all (fun f => decide (0 ≤ f.stock))

/-- Some merged cart line asks for more than the current stock of an
existing flower. -/
def hasInsufficient (s : Store) (cart : List CartItem) : Bool :=
  cart.any (fun item =>
    match flowerMapGet s.flowers item.flowerId with
    | some fl => decide (fl.stock < item.quantity)
    | none => false)

/-- Total quantity a merged cart orders for a given flower id. -/
def cartQty (items : List CartItem) (fid : String) : Int :=
  ((items.filter (fun i => i.flowerId == fid)).map CartItem.quantity).sum

/-- Total stock decrement the recorded line items cause for a flower id. -/
def stockDelta (items : List OrderItem) (fid : String) : Int :=
  ((items.filter (fun i => i.flowerId == fid)).map OrderItem.quantity).sum

/-- Sum of the raw (unmerged) quantities submitted for a flower id. -/
def rawQtySum (raw : List RawCartItem) (fid : String) : Int :=
  ((raw.filter (fun r => jsTrim r.flowerId == fid)).map (fun r => r.quantity.num)).sum

/-! ## Flower creation (`normalizeFlowerCreatePayload`, `POST /api/flowers`) -/

/-- `ALLOWED_OCCASIONS`. -/
def allowedOccasions : List String :=
  ["general", "romance", "birthday", "wedding", "thank-you"]

/-- `normalizeOccasion`: trim/lower-case and membership in the fixed
vocabulary. -/
def normalizeOccasion (value : String) : Option String :=
  let normalized := jsToLower (jsTrim value)
  if allowedOccasions.contains normalized then some normalized else none

/-- `MAX_STOCK`. -/
def maxStock : Rat := 10000

/-- `isValidImageUrl`: empty passes; otherwise `new URL(value)` must
carry an `http:`/`https:` protocol.  Modelled as a case-insensitive
`http://`/`https://` prefix with a non-empty remainder (approximation of
WHATWG URL parsing; no claim depends on its fine structure). -/
def isValidImageUrl (value : String) : Bool :=
  value = "" ||
  ("http://".data.isPrefixOf (jsToLower value).data && decide (7 < value.length)) ||
  ("https://".data.isPrefixOf (jsToLower value).data && decide (8 < value.length))

/-- `normalizeFlowerFocus(value, fallback = 50)`. -/
def normalizeFlowerFocus (value : Option JNum) : Option Rat :=
  match value with
  | none => some 50
  | some .nan => some 50
  | some (.val q) => if q < 0 ∨ 100 < q then none else some (round2 q)

/-- The parsed JSON body of `POST /api/flowers`.  `none` models an absent
(`undefined`) property, for which the destructuring defaults kick in;
`JNum.nan` models a present value whose `Number(...)` coercion is not
finite. -/
structure FlowerCreateBody where
  name : Option String := none
  description : Option String := none
  price : JNum := .nan
  occasion : Option String := none
  image : Option String := none
  imageFocusX : Option JNum := none
  imageFocusY : Option JNum := none
  stock : Option JNum := none
  deriving Repr, DecidableEq

/-- `normalizeFlowerCreatePayload` (`server/src/index.js`, identical to
`normalizeCreateFlowerPayload` in `api/flowers.js`): name length, finite
positive price, bounded integer stock, occasion vocabulary, image URL
and focus bounds. -/
def normalizeFlowerCreatePayload (newId : String) (body : FlowerCreateBody) :
    Except String Flower :=
  if (jsTrim (body.name.getD "")).length < 2 then
    .error "name must be at least 2 characters"
  else
    match body.price with
    | .nan => .error "price must be greater than 0"
    | .val p =>
        if p ≤ 0 then .error "price must be greater than 0"
        else
          match body.stock.getD (.val 0) with
          | .nan => .error "stock must be an integer between 0 and 10000"
          | .val st =>
              if st < 0 ∨ maxStock < st then
                .error "stock must be an integer between 0 and 10000"
              else if st.den ≠ 1 then .error "stock must be a whole number"
              else
                match normalizeOccasion (body.occasion.getD "general") with
                | none => .error "occasion is invalid"
                | some occ =>
                    if ¬ isValidImageUrl (jsTrim (body.image.getD "")) then
                      .error "image must be a valid http/https URL"
                    else
                      match normalizeFlowerFocus body.imageFocusX,
                            normalizeFlowerFocus body.imageFocusY with
                      | some fx, some fy =>
                          .ok { id := newId, name := jsTrim (body.name.getD ""),
                                description := jsTrim (body.description.getD ""),
                                price := round2 p, occasion := occ,
                                image := jsTrim (body.image.getD ""),
                                imageFocusX := fx, imageFocusY := fy, stock := st.num }
                      | _, _ => .error "image focus values must be between 0 and 100"

/-- Outcome of `POST /api/flowers`. -/
inductive FlowerResult where
  | badRequest (message : String)
  | created (flower : Flower)
  deriving Repr, DecidableEq

/-- `app.post("/api/flowers")`: validate, then push the new record. -/
def postFlower (s : Store) (newId : String) (body : FlowerCreateBody) :
    Store × FlowerResult :=
  match normalizeFlowerCreatePayload newId body with
  | .error msg => (s, .badRequest msg)
  | .ok flower => ({ s with flowers := s.flowers ++ [flower] }, .created flower)

/-- The price is not a positive finite number. -/
def priceInvalid (body : FlowerCreateBody) : Bool :=
  match body.price with
  | .nan => true
  | .val p => decide (p ≤ 0)

/-- The (defaulted) stock is not an integer between 0 and `MAX_STOCK`. -/
def stockInvalid (body : FlowerCreateBody) : Bool :=
  match body.stock.getD (.val 0) with
  | .nan => true
  | .val st => decide (st < 0) || decide (maxStock < st) || st.den != 1

/-- The (defaulted) occasion is not in the allowed vocabulary. -/
def occasionInvalid (body : FlowerCreateBody) : Bool :=
  (normalizeOccasion (body.occasion.getD "general")).isNone

/-! ## Flower update and delete (`PATCH`/`DELETE /api/flowers`) -/

/-- A validated partial patch (`normalizeFlowerPatchPayload` result):
only present fields are overwritten; the id is never part of it. -/
structure FlowerUpdates where
  name : Option String := none
  description : Option String := none
  price : Option Rat := none
  occasion : Option String := none
  image : Option String := none
  imageFocusX : Option Rat := none
  imageFocusY : Option Rat := none
  stock : Option Int := none
  deriving Repr, DecidableEq

/-- `{ ...currentFlower, ...updates }`. -/
def applyUpdates (f : Flower) (u : FlowerUpdates) : Flower :=
  { id := f.id,
    name := u.name.getD f.name,
    description := u.description.getD f.description,
    price := u.price.getD f.price,
    occasion := u.occasion.getD f.occasion,
    image := u.image.getD f.image,
    imageFocusX := u.imageFocusX.getD f.imageFocusX,
    imageFocusY := u.imageFocusY.getD f.imageFocusY,
    stock := u.stock.getD f.stock }

/-- Replace the element at the given index by its patched version
(`data.flowers[index] = { ...data.flowers[index], ...updates }`). -/
def updateAt (u : FlowerUpdates) : List Flower → Nat → List Flower
  | [], _ => []
  | f :: rest, 0 => applyUpdates f u :: rest
  | f :: rest, n + 1 => f :: updateAt u rest n

/-- An admin mutation of the catalog after order creation. -/
inductive FlowerOp where
  | update (fid : String) (updates : FlowerUpdates)
  | remove (fid : String)
  deriving Repr, DecidableEq

/-- In-memory `PATCH /api/flowers` resp. `DELETE /api/flowers`: locate
the first flower with the given id (miss ⇒ 404, store untouched),
otherwise merge the patch onto resp. splice out that record. -/
def applyFlowerOp (s : Store) : FlowerOp → Store
  | .update fid u =>
      match s.flowers.findIdx? (fun f => f.id == fid) with
      | none => s
      | some i => { s with flowers := updateAt u s.flowers i }
  | .remove fid =>
      match s.flowers.findIdx? (fun f => f.id == fid) with
      | none => s
      | some i => { s with flowers := s.flowers.eraseIdx i }

/-- A whole sequence of later update/delete operations. -/
def applyFlowerOps (s : Store) (ops : List FlowerOp) : Store :=
  ops.foldl applyFlowerOp s

/-! ## Chat (`normalizeChatPayload`, `buildLocalChatReply`,
`requestOpenAiChatReply`, `POST /api/chat`) -/

/-- Substring test (what an unanchored regex literal-alternative match
performs on the lower-cased message). -/
def containsSubList (needle : List Char) : List Char → Bool
  | [] => needle.isEmpty
  | c :: rest => needle.isPrefixOf (c :: rest) || containsSubList needle rest

/-- `needle` occurs as a contiguous substring of `hay`. -/
def containsStr (hay needle : String) : Bool := containsSubList needle.data hay.data

/-- One regex alternative group: does any keyword occur in the string? -/
def matchesAny (s : String) (keys : List String) : Bool :=
  keys.any (fun k => containsStr s k)

/-- `/(hello|hi|hey|good morning|good evening)/i`. -/
def greetingKeywords : List String := ["hello", "hi", "hey", "good morning", "good evening"]

/-- `/(delivery|ship|shipping|same day|arrive)/i`. -/
def deliveryKeywords : List String := ["delivery", "ship", "shipping", "same day", "arrive"]

/-- `/(payment|paypal|cash|card|pay)/i`. -/
def paymentKeywords : List String := ["payment", "paypal", "cash", "card", "pay"]

/-- `/(price|cost|cheap|budget|afford)/i`. -/
def pricingKeywords : List String := ["price", "cost", "cheap", "budget", "afford"]

/-- `/(contact|phone|whatsapp|support|agent|human)/i`. -/
def contactKeywords : List String := ["contact", "phone", "whatsapp", "support", "agent", "human"]

/-- The occasion/pattern table searched with `Array.prototype.find`. -/
def occasionKeywords : List (String × List String) :=
  [("romance", ["romance", "romantic", "love", "anniversary", "valentine"]),
   ("birthday", ["birthday", "bday"]),
   ("wedding", ["wedding", "bridal", "bride"]),
   ("thank-you", ["thank", "gratitude", "appreciation"]),
   ("general", ["general", "any occasion", "everyday"])]

/-- `WHATSAPP_CHAT_URL`. -/
def whatsappChatUrl : String := "https://wa.me/212775094615"

/-- `.join(", ")`. -/
def joinCommaList : List String → String
  | [] => ""
  | [s] => s
  | s :: rest => s ++ ", " ++ joinCommaList rest

/-- Decimal digits of a natural number, most significant first (the
first argument is recursion fuel, always supplied as `n + 1`). -/
def natDigitsAux : Nat → Nat → List Char
  | 0, _ => []
  | fuel + 1, n =>
      if n < 10 then [Nat.digitChar n]
      else natDigitsAux fuel (n / 10) ++ [Nat.digitChar (n % 10)]

/-- Decimal rendering of a natural number. -/
def natToStr (n : Nat) : String := ⟨natDigitsAux (n + 1) n⟩

/-- Decimal rendering of an integer. -/
def intToStr (i : Int) : String :=
  if i < 0 then "-" ++ natToStr i.natAbs else natToStr i.natAbs

/-- Two-digit zero-padded rendering of a value below 100. -/
def natPad2 (n : Nat) : String := if n < 10 then "0" ++ natToStr n else natToStr n

/-- `Number(q).toFixed(2)` for the non-negative prices rendered into
replies. -/
def ratToFixed2 (q : Rat) : String :=
  let cents : Int := (qadd (qmul q 100) (Rat.normalize 1 2)).floor
  intToStr (cents / 100) ++ "." ++ natPad2 (cents % 100).toNat

/-- `flowers.filter((flower) => Number(flower?.stock || 0) > 0)`. -/
def inStockFlowers (flowers : List Flower) : List Flower :=
  flowers.filter (fun f => decide (0 < f.stock))

/-- `[...inStock].sort((a, b) => a.price - b.price)[0]`: V8's sort is
stable, hence the first flower of minimal price. -/
def cheapestFlower (flowers : List Flower) : Option Flower :=
  flowers.foldl
    (fun acc f =>
      match acc with
      | none => some f
      | some g => if f.price < g.price then some f else acc)
    none

/-- `buildLocalChatReply` (`server/src/index.js` / `api/chat.js`): the
deterministic keyword-routed canned replies, tried in source order. -/
def buildLocalChatReply (message : String) (flowers : List Flower) : String :=
  if matchesAny (jsToLower message) greetingKeywords then
    "Hi! I can help with bouquets, prices, delivery, and checkout. What are you shopping for today?"
  else if matchesAny (jsToLower message) deliveryKeywords then
    "We provide same-day delivery based on availability and schedule. Share your area and preferred time and we can guide the best option."
  else if matchesAny (jsToLower message) paymentKeywords then
    "You can checkout with Cash on Delivery or PayPal. Orders are created as Pending, then payment status can be updated by admin."
  else if matchesAny (jsToLower message) pricingKeywords then
    match cheapestFlower (inStockFlowers flowers) with
    | some f =>
        "Our current budget-friendly option is " ++ (f.name ++ (" at $" ++
          (ratToFixed2 f.price ++ ". I can also suggest options by occasion.")))
    | none => "I can help with pricing, but I do not see in-stock items right now."
  else
    match occasionKeywords.find? (fun p => matchesAny (jsToLower message) p.2) with
    | some (occ, _) =>
        if ((inStockFlowers flowers).filter (fun f => f.occasion == occ)).take 3 ≠ [] then
          "Great choice. For " ++ (occ ++ (" I recommend " ++
            (joinCommaList
              (((inStockFlowers flowers).filter (fun f => f.occasion == occ)).take 3
                |>.map (fun f => f.name ++ (" ($" ++ (ratToFixed2 f.price ++ ")")))) ++ ".")))
        else
          "We currently have limited stock for " ++ (occ ++
            " bouquets. I can suggest alternatives from other categories.")
    | none =>
        if matchesAny (jsToLower message) contactKeywords then
          "You can reach our team on WhatsApp for direct help: " ++ whatsappChatUrl
        else if (inStockFlowers flowers).take 3 ≠ [] then
          "Top picks right now: " ++
            (joinCommaList
              (((inStockFlowers flowers).take 3).map
                (fun f => f.name ++ (" ($" ++ (ratToFixed2 f.price ++ ")")))) ++
             ". Tell me your occasion and budget for a sharper recommendation.")
        else
          "I can help with bouquets, delivery, pricing, and checkout. Ask me anything about your order."

/-- One entry of the submitted chat history. -/
structure ChatHistoryEntry where
  role : String
  content : String
  deriving Repr, DecidableEq

/-- The parsed JSON body of `POST /api/chat`. -/
structure ChatBody where
  message : Option String
  history : Option (List ChatHistoryEntry)
  deriving Repr, DecidableEq

/-- Result of `normalizeChatPayload`. -/
structure ChatPayload where
  message : String
  history : List ChatHistoryEntry
  deriving Repr, DecidableEq

/-- `CHAT_MAX_MESSAGE_LENGTH`. -/
def chatMaxMessageLength : Nat := 500

/-- `CHAT_MAX_HISTORY_ITEMS`. -/
def chatMaxHistoryItems : Nat := 10

/-- `CHAT_HISTORY_ENTRY_LENGTH`. -/
def chatHistoryEntryLength : Nat := 500

/-- `normalizeChatPayload`: reject empty/whitespace-only and over-long
messages; keep the last 10 history entries, normalized and truncated,
dropping empty ones. -/
def normalizeChatPayload (body : ChatBody) : Except String ChatPayload :=
  let message := jsTrim (body.message.getD "")
  if message = "" then .error "message is required"
  else if chatMaxMessageLength < message.length then
    .error "message must be 500 characters or less"
  else
    let history := body.history.getD []
    let normalizedHistory :=
      ((history.drop (history.length - chatMaxHistoryItems)).map fun entry =>
        ({ role := if entry.role = "assistant" then "assistant" else "user",
           content := ⟨(jsTrim entry.content).data.take chatHistoryEntryLength⟩ }
          : ChatHistoryEntry)).filter
        (fun entry => entry.content ≠ "")
    .ok { message := message, history := normalizedHistory }

/-- `requestOpenAiChatReply` returns `null` without any network call when
no API key is configured; an actual round trip is modelled by the
`externalReply` parameter (`none` = failure or empty reply, which the
caller turns into the local fallback). -/
def requestOpenAiChatReply (apiKey : String) (externalReply : Option String) :
    Option String :=
  if jsTrim apiKey = "" then none else externalReply

/-- `generateChatReply`: `(reply, source)`. -/
def generateChatReply (apiKey : String) (externalReply : Option String)
    (message : String) (flowers : List Flower) : String × String :=
  match requestOpenAiChatReply apiKey externalReply with
  | some reply => (reply, "openai")
  | none => (buildLocalChatReply message flowers, "local")

/-- Outcome of `POST /api/chat`. -/
inductive ChatResult where
  | badRequest (message : String)
  | ok (reply : String) (source : String)
  deriving Repr, DecidableEq

/-- `app.post("/api/chat")`. -/
def postChat (apiKey : String) (externalReply : Option String)
    (flowers : List Flower) (body : ChatBody) : ChatResult :=
  match normalizeChatPayload body with
  | .error msg => .badRequest msg
  | .ok payload =>
      let result := generateChatReply apiKey externalReply payload.message flowers
      .ok result.1 result.2

/-- The reply talks about prices: it contains the word `price` (also as
part of `pricing`) or renders a dollar amount. -/
def mentionsPrice (s : String) : Bool :=
  containsStr (jsToLower s) "price" || containsStr (jsToLower s) "pricing" ||
  containsStr s "$"

/-! ## Sessions (`signToken`, `verifyToken`, `requireRole` in
`api/_auth.js`).  The HMAC-SHA256 digest and the base64url/JSON body
codec are abstracted as parameters `mac`, `encodeSession`,
`decodeSession`: the code treats them as opaque string transformers
(compare, concatenate, split on `.`), which is exactly what the model
does.  Tokens are character lists so that the `split(".")` step is
explicit. -/

/-- A session token body (`{ sub, email, role, exp }`).  `exp = none`
models an absent/falsy expiry (`!payload.exp`); `exp = some 0` is falsy
in JS and is rejected by `expOk` accordingly. -/
structure SessionPayload where
  sub : String
  email : String
  role : String
  exp : Option Int
  deriving Repr, DecidableEq

/-- `base64urlEncode(JSON.stringify({ alg: "HS256", typ: "JWT" }))`. -/
def jwtHeader : List Char := "eyJhbGciOiJIUzI1NiIsInR5cCI6IkpXVCJ9".data

section Auth

variable (mac : List Char → List Char → List Char)
variable (encodeSession : SessionPayload → List Char)
variable (decodeSession : List Char → Option SessionPayload)

/-- `signToken`: `header.body.signature` with the HMAC over
`header.body`. -/
def signToken (secret : List Char) (p : SessionPayload) : List Char :=
  let unsigned := jwtHeader ++ '.' :: encodeSession p
  unsigned ++ '.' :: mac secret unsigned

/-- The expiry acceptance test `!(!payload.exp || payload.exp < now)`. -/
def expOk (exp : Option Int) (now : Int) : Bool :=
  match exp with
  | none => false
  | some e => !(e == 0) && !(decide (e < now))

/-- `verifyToken`: split into three dot-separated parts, recompute the
signature over `header.body` and compare (length check plus
`timingSafeEqual` amounts to equality), decode the body, then check the
expiry against the current epoch second. -/
def verifyToken (secret : List Char) (now : Int) : Option (List Char) → Option SessionPayload
  | none => none
  | some t =>
      match splitOnChar '.' t with
      | [h, b, sig] =>
          if sig ≠ mac secret (h ++ '.' :: b) then none
          else
            match decodeSession b with
            | none => none
            | some payload => if expOk payload.exp now then some payload else none
      | _ => none

/-- The public user projection of a verified session. -/
structure SessionUser where
  id : String
  email : String
  role : String
  deriving Repr, DecidableEq

/-- Outcome of `requireRole`. -/
inductive GateResult where
  | denied (status : Nat) (message : String)
  | allowed (user : SessionUser)
  deriving Repr, DecidableEq

/-- `getSessionUser`: verify the session cookie and project it. -/
def getSessionUser (secret : List Char) (now : Int) (cookie : Option (List Char)) :
    Option SessionUser :=
  match verifyToken mac decodeSession secret now cookie with
  | none => none
  | some p => some ⟨p.sub, p.email, p.role⟩

/-- `requireRole` (`api/_auth.js`): 503 when authentication is not
configured, 401 without a verifiable unexpired session, 403 when the
session's role is outside the allowed set, otherwise the user. -/
def requireRole (configured : Bool) (secret : List Char) (now : Int)
    (cookie : Option (List Char)) (allowedRoles : List String) : GateResult :=
  if ¬ configured then .denied 503 "authentication is not configured"
  else
    match getSessionUser mac decodeSession secret now cookie with
    | none => .denied 401 "authentication required"
    | some user =>
        if ¬ allowedRoles.contains user.role then .denied 403 "insufficient permissions"
        else .allowed user

end Auth

/-! ### Concrete instantiations used by the witnesses -/

/-- Fixture payload (fresh at `now = 200`). -/
def payloadW : SessionPayload := ⟨"admin-1", "admin@zaamiflower.com", "admin", some 300⟩

/-- Fixture payload whose expiry lies in the past at `now = 200`. -/
def payloadExpiredW : SessionPayload := ⟨"admin-1", "admin@zaamiflower.com", "admin", some 100⟩

/-- Fixture body codec (dot-free, inverts on the fixtures). -/
def encodeW (p : SessionPayload) : List Char := if p = payloadW then ['b'] else ['c']

/-- Fixture body decoder. -/
def decodeW (s : List Char) : Option SessionPayload :=
  if s = ['b'] then some payloadW
  else if s = ['c'] then some payloadExpiredW
  else none

/-- Fixture MAC (deterministic, dot-free output). -/
def macW (secret msg : List Char) : List Char :=
  's' :: (secret ++ msg.filter (fun c => c ≠ '.'))

/-- Total quantity a `(flowerId, quantity)` pair list assigns to an id
(proof-layer bridge between `stockDelta` and `cartQty`). -/
def pairQty (l : List (String × Int)) (fid : String) : Int :=
  ((l.filter (fun p => p.1 == fid)).map Prod.snd).sum

/-- Fixture catalog record. -/
def flowerF1 : Flower :=
  { id := "f1", name := "Rose", description := "", price := 10, occasion := "general",
    image := "", imageFocusX := 50, imageFocusY := 50, stock := 5 }

/-- Fixture store: one flower, no orders. -/
def storeC : Store := { flowers := [flowerF1], orders := [] }

/-- Fixture customer passing every validation. -/
def customerC : Customer := ⟨"Jane Doe", "jane@example.com", "0123456789", "12 Rose Street"⟩

/-- Fixture customer whose phone has too few digits. -/
def customerBadPhone : Customer := ⟨"Jane Doe", "jane@example.com", "123", "12 Rose Street"⟩

/-- Fixture order body that succeeds against `storeC`. -/
def bodyValid : OrderBody :=
  { customer := some customerC, items := some [⟨"f1", 2⟩], paymentMethod := none }

/-- Fixture order body asking for more than `storeC` stocks. -/
def bodyOver : OrderBody :=
  { customer := some customerC, items := some [⟨"f1", 99⟩], paymentMethod := none }

/-- Fixture order body mixing an unknown flower id with an over-stock line. -/
def bodyMixed : OrderBody :=
  { customer := some customerC, items := some [⟨"zzz", 1⟩, ⟨"f1", 99⟩],
    paymentMethod := none }

/-- Fixture order body with an invalid phone. -/
def bodyBadPhone : OrderBody :=
  { customer := some customerBadPhone, items := some [⟨"f1", 2⟩], paymentMethod := none }

/-- The payload `normalizeOrderPayload` produces for `bodyValid`. -/
def payloadValid : OrderPayload :=
  { customer := customerC, paymentMethod := "cash", paymentStatus := "pending",
    items := [⟨"f1", 2⟩] }

/-- The payload `normalizeOrderPayload` produces for `bodyOver`. -/
def payloadOver : OrderPayload :=
  { customer := customerC, paymentMethod := "cash", paymentStatus := "pending",
    items := [⟨"f1", 99⟩] }

/-- The order record `postOrder` creates for `bodyValid` at id `o6`. -/
def orderW : Order :=
  { id := "o6", customer := customerC, paymentMethod := "cash",
    paymentStatus := "pending",
    items := [⟨"f1", "Rose", 10, 2, 20⟩], total := 20 }

/-- The store after `bodyValid` succeeded against `storeC`. -/
def storeAfterValid : Store :=
  { flowers := [{ flowerF1 with stock := 3 }], orders := [orderW] }

/-- Fixture admin mutations applied after the fixture order. -/
def opsW : List FlowerOp :=
  [.update "f1" { price := some 99, name := some "Lily" }, .remove "f1"]

/-- Fixture flower body with a disallowed occasion. -/
def bodyBadOccasion : FlowerCreateBody :=
  { name := some "Tulip", price := .val 12, occasion := some "party" }

/-- Fixture flower body with a non-positive price. -/
def bodyBadPrice : FlowerCreateBody := { name := some "Tulip", price := .val 0 }

/-- Fixture flower body with an out-of-range stock. -/
def bodyBadStock : FlowerCreateBody :=
  { name := some "Tulip", price := .val 12, stock := some (.val 10001) }

/-! ## Arithmetic bridge lemmas -/

theorem qmul_eq_mul (a b : Rat) : qmul a b = a * b := by
  rw [Rat.mul_def]; rfl

theorem qadd_eq_add (a b : Rat) : qadd a b = a + b := by
  rw [Rat.add_def]; rfl

/-! ## Generic association-list lemmas -/

theorem find_key_self {α : Type _} (key : α → String) :
    ∀ (l : List α), (l.map key).Nodup → ∀ a, a ∈ l →
      l.find? (fun x => key x == key a) = some a := by
  intro l
  induction l with
  | nil => intro _ a ha; cases ha
  | cons b t ih =>
      intro hnd a ha
      simp only [List.map_cons, List.nodup_cons] at hnd
      rcases List.mem_cons.mp ha with rfl | hmem
      · exact List.find?_cons_of_pos _ (by simp)
      · have hne : key b ≠ key a := fun he =>
          hnd.1 (he ▸ List.mem_map_of_mem key hmem)
        rw [List.find?_cons_of_neg _ (by simpa using hne)]
        exact ih hnd.2 a hmem

theorem filter_key_eq_nil {α : Type _} (key : α → String) (fid : String) :
    ∀ (l : List α), fid ∉ l.map key → l.filter (fun x => key x == fid) = [] := by
  intro l
  induction l with
  | nil => intro _; rfl
  | cons b t ih =>
      intro h
      simp only [List.map_cons, List.mem_cons, not_or] at h
      simp [List.filter_cons, Ne.symm h.1, ih h.2]

theorem filter_key_singleton {α : Type _} (key : α → String) :
    ∀ (l : List α), (l.map key).Nodup → ∀ a, a ∈ l →
      l.filter (fun x => key x == key a) = [a] := by
  intro l
  induction l with
  | nil => intro _ a ha; cases ha
  | cons b t ih =>
      intro hnd a ha
      simp only [List.map_cons, List.nodup_cons] at hnd
      rcases List.mem_cons.mp ha with rfl | hmem
      · have ht : t.filter (fun x => key x == key a) = [] :=
          filter_key_eq_nil key (key a) t hnd.1
        simp [List.filter_cons, ht]
      · have hne : key b ≠ key a := fun he =>
          hnd.1 (he ▸ List.mem_map_of_mem key hmem)
        simp [List.filter_cons, hne, ih hnd.2 a hmem]

/-! ## Flower lookup lemmas -/

theorem flowerMapGet_self (flowers : List Flower)
    (hnd : (flowers.map Flower.id).Nodup) (g : Flower) (hg : g ∈ flowers) :
    flowerMapGet flowers g.id = some g := by
  have h1 : (flowers.reverse.map Flower.id).Nodup := by
    rw [List.map_reverse, List.nodup_reverse]; exact hnd
  exact find_key_self Flower.id flowers.reverse h1 g (List.mem_reverse.mpr hg)

theorem flowerMapGet_some {flowers : List Flower} {fid : String} {f : Flower}
    (h : flowerMapGet flowers fid = some f) : f ∈ flowers ∧ f.id = fid := by
  unfold flowerMapGet at h
  have hm := List.mem_of_find?_eq_some h
  have hp := List.find?_some h
  exact ⟨List.mem_reverse.mp hm, by simpa using hp⟩

/-! ## Stock decrement lemmas -/

theorem stockDelta_nil (fid : String) : stockDelta [] fid = 0 := rfl

theorem stockDelta_cons (i : OrderItem) (rest : List OrderItem) (fid : String) :
    stockDelta (i :: rest) fid =
      (if i.flowerId = fid then i.quantity else 0) + stockDelta rest fid := by
  by_cases h : i.flowerId = fid <;> simp [stockDelta, List.filter_cons, h]

theorem decrementStock_eq_map : ∀ (items : List OrderItem) (flowers : List Flower),
    decrementStock flowers items =
      flowers.map (fun f => { f with stock := f.stock - stockDelta items f.id }) := by
  intro items
  induction items with
  | nil => intro flowers; simp [decrementStock, stockDelta]
  | cons i rest ih =>
      intro flowers
      have hstep : decrementStock flowers (i :: rest) =
          decrementStock (flowers.map fun f =>
            if f.id == i.flowerId then { f with stock := f.stock - i.quantity } else f)
            rest := rfl
      rw [hstep, ih, List.map_map]
      refine List.map_congr_left ?_
      intro f _
      simp only [Function.comp_apply]
      by_cases h : f.id = i.flowerId
      · simp [h, stockDelta_cons, sub_sub]
      · simp [h, stockDelta_cons, Ne.symm h]

theorem mem_decrementStock {flowers : List Flower} {items : List OrderItem} {f' : Flower}
    (h : f' ∈ decrementStock flowers items) :
    ∃ g ∈ flowers, f' = { g with stock := g.stock - stockDelta items g.id } := by
  rw [decrementStock_eq_map] at h
  rcases List.mem_map.mp h with ⟨g, hg, he⟩
  exact ⟨g, hg, he.symm⟩

/-! ## Cart merging lemmas -/

theorem cartQty_nil (fid : String) : cartQty [] fid = 0 := rfl

theorem cartQty_cons (c : CartItem) (rest : List CartItem) (fid : String) :
    cartQty (c :: rest) fid =
      (if c.flowerId = fid then c.quantity else 0) + cartQty rest fid := by
  by_cases h : c.flowerId = fid <;> simp [cartQty, List.filter_cons, h]

theorem rawQtySum_nil (fid : String) : rawQtySum [] fid = 0 := rfl

theorem rawQtySum_cons (r : RawCartItem) (rest : List RawCartItem) (fid : String) :
    rawQtySum (r :: rest) fid =
      (if jsTrim r.flowerId = fid then r.quantity.num else 0) + rawQtySum rest fid := by
  by_cases h : jsTrim r.flowerId = fid <;> simp [rawQtySum, List.filter_cons, h]

theorem mem_keys_addCartQuantity :
    ∀ (acc : List CartItem) (fid : String) (q : Int) (x : String),
      x ∈ (addCartQuantity acc fid q).map CartItem.flowerId ↔
        x ∈ acc.map CartItem.flowerId ∨ x = fid := by
  intro acc fid q
  induction acc with
  | nil => intro x; simp [addCartQuantity]
  | cons e rest ih =>
      intro x
      by_cases h : e.flowerId = fid
      · subst h
        simp only [addCartQuantity, beq_self_eq_true, if_true, List.map_cons,
          List.mem_cons]
        tauto
      · simp only [addCartQuantity, h, beq_iff_eq, if_false, List.map_cons,
          List.mem_cons, ih]
        tauto

theorem nodup_keys_addCartQuantity :
    ∀ (acc : List CartItem) (fid : String) (q : Int),
      (acc.map CartItem.flowerId).Nodup →
      ((addCartQuantity acc fid q).map CartItem.flowerId).Nodup := by
  intro acc fid q
  induction acc with
  | nil => intro _; simp [addCartQuantity]
  | cons e rest ih =>
      intro hnd
      simp only [List.map_cons, List.nodup_cons] at hnd
      by_cases h : e.flowerId = fid
      · subst h
        simp only [addCartQuantity, beq_self_eq_true, if_true, List.map_cons,
          List.nodup_cons]
        exact ⟨hnd.1, hnd.2⟩
      · have hout : e.flowerId ∉ (addCartQuantity rest fid q).map CartItem.flowerId := by
          rw [mem_keys_addCartQuantity]
          rintro (hm | he)
          · exact hnd.1 hm
          · exact h he
        simp only [addCartQuantity, h, beq_iff_eq, if_false, List.map_cons,
          List.nodup_cons]
        exact ⟨hout, ih hnd.2⟩

theorem cartQty_addCartQuantity :
    ∀ (acc : List CartItem) (fid : String) (q : Int) (fid' : String),
      cartQty (addCartQuantity acc fid q) fid' =
        cartQty acc fid' + (if fid = fid' then q else 0) := by
  intro acc fid q
  induction acc with
  | nil =>
      intro fid'
      by_cases h : fid = fid' <;>
        simp [addCartQuantity, cartQty_cons, cartQty_nil, h]
  | cons e rest ih =>
      intro fid'
      by_cases h : e.flowerId = fid
      · subst h
        by_cases h' : e.flowerId = fid'
        · simp only [addCartQuantity, beq_self_eq_true, if_true, cartQty_cons, h',
            if_pos rfl]
          omega
        · simp [addCartQuantity, cartQty_cons, h']
      · simp only [addCartQuantity, h, beq_iff_eq, if_false, cartQty_cons, ih]
        omega

theorem normalizeCartItemsAux_nodup :
    ∀ (raw : List RawCartItem) (acc cart : List CartItem),
      (acc.map CartItem.flowerId).Nodup → normalizeCartItemsAux acc raw = .ok cart →
      (cart.map CartItem.flowerId).Nodup := by
  intro raw
  induction raw with
  | nil =>
      intro acc cart hnd h
      simp only [normalizeCartItemsAux, Except.ok.injEq] at h
      exact h ▸ hnd
  | cons item rest ih =>
      intro acc cart hnd h
      simp only [normalizeCartItemsAux] at h
      split at h
      · simp at h
      · exact ih _ _ (nodup_keys_addCartQuantity _ _ _ hnd) h

theorem normalizeCartItemsAux_qty :
    ∀ (raw : List RawCartItem) (acc cart : List CartItem),
      normalizeCartItemsAux acc raw = .ok cart →
      ∀ fid, cartQty cart fid = cartQty acc fid + rawQtySum raw fid := by
  intro raw
  induction raw with
  | nil =>
      intro acc cart h fid
      simp only [normalizeCartItemsAux, Except.ok.injEq] at h
      simp [← h, rawQtySum_nil]
  | cons item rest ih =>
      intro acc cart h fid
      simp only [normalizeCartItemsAux] at h
      split at h
      · simp at h
      · rw [ih _ _ h fid, cartQty_addCartQuantity, rawQtySum_cons]
        omega

theorem mem_keys_normalizeCartItemsAux :
    ∀ (raw : List RawCartItem) (acc cart : List CartItem),
      normalizeCartItemsAux acc raw = .ok cart →
      ∀ x, x ∈ cart.map CartItem.flowerId ↔
        x ∈ acc.map CartItem.flowerId ∨ ∃ r ∈ raw, jsTrim r.flowerId = x := by
  intro raw
  induction raw with
  | nil =>
      intro acc cart h x
      simp only [normalizeCartItemsAux, Except.ok.injEq] at h
      simp [← h]
  | cons item rest ih =>
      intro acc cart h x
      simp only [normalizeCartItemsAux] at h
      split at h
      · simp at h
      · rw [ih _ _ h x, mem_keys_addCartQuantity]
        simp only [List.mem_cons]
        constructor
        · rintro ((hm | rfl) | ⟨r, hr, he⟩)
          · exact Or.inl hm
          · exact Or.inr ⟨item, Or.inl rfl, rfl⟩
          · exact Or.inr ⟨r, Or.inr hr, he⟩
        · rintro (hm | ⟨r, rfl | hr, he⟩)
          · exact Or.inl (Or.inl hm)
          · exact Or.inl (Or.inr he.symm)
          · exact Or.inr ⟨r, hr, he⟩

theorem normalizeCartItems_nodup {raw : List RawCartItem} {cart : List CartItem}
    (h : normalizeCartItems raw = .ok cart) : (cart.map CartItem.flowerId).Nodup :=
  normalizeCartItemsAux_nodup raw [] cart (by simp) h

theorem normalizeCartItems_qty {raw : List RawCartItem} {cart : List CartItem}
    (h : normalizeCartItems raw = .ok cart) (fid : String) :
    cartQty cart fid = rawQtySum raw fid := by
  have := normalizeCartItemsAux_qty raw [] cart h fid
  simpa [cartQty_nil] using this

theorem mem_keys_normalizeCartItems {raw : List RawCartItem} {cart : List CartItem}
    (h : normalizeCartItems raw = .ok cart) (x : String) :
    x ∈ cart.map CartItem.flowerId ↔ ∃ r ∈ raw, jsTrim r.flowerId = x := by
  have := mem_keys_normalizeCartItemsAux raw [] cart h x
  simpa using this

theorem cartQty_of_mem {cart : List CartItem}
    (hnd : (cart.map CartItem.flowerId).Nodup) {c : CartItem} (hc : c ∈ cart) :
    cartQty cart c.flowerId = c.quantity := by
  unfold cartQty
  rw [filter_key_singleton CartItem.flowerId cart hnd c hc]
  simp

/-! ## Order validation loop lemmas -/

theorem buildOrderItems_ok_spec (flowers : List Flower) :
    ∀ (cart : List CartItem) (items : List OrderItem),
      buildOrderItems flowers cart = .ok items →
      items.map (fun i => (i.flowerId, i.quantity)) =
        cart.map (fun c => (c.flowerId, c.quantity)) ∧
      ∀ i ∈ items, ∃ fl, flowerMapGet flowers i.flowerId = some fl ∧
        i.quantity ≤ fl.stock ∧ i.name = fl.name ∧ i.unitPrice = fl.price ∧
        i.lineTotal = round2 (qmul fl.price i.quantity) := by
  intro cart
  induction cart with
  | nil =>
      intro items h
      simp only [buildOrderItems, Except.ok.injEq] at h
      subst h
      simp
  | cons c rest ih =>
      intro items h
      cases hlk : flowerMapGet flowers c.flowerId with
      | none => simp [buildOrderItems, hlk] at h
      | some fl =>
          by_cases hst : fl.stock < c.quantity
          · simp [buildOrderItems, hlk, hst] at h
          · cases hrec : buildOrderItems flowers rest with
            | error r => simp [buildOrderItems, hlk, hrec, if_neg hst] at h
            | ok tail =>
                simp only [buildOrderItems, hlk, hrec, if_neg hst,
                  Except.ok.injEq] at h
                subst h
                obtain ⟨hmap, hall⟩ := ih tail hrec
                have hid : fl.id = c.flowerId := (flowerMapGet_some hlk).2
                constructor
                · simp [hmap, hid]
                · intro i hi
                  rcases List.mem_cons.mp hi with rfl | hm
                  · exact ⟨fl, by simp only [hid]; exact hlk,
                      not_lt.mp hst, rfl, rfl, rfl⟩
                  · exact hall i hm

theorem buildOrderItems_ok_of_all (flowers : List Flower) :
    ∀ cart : List CartItem,
      (∀ c ∈ cart, ∃ fl, flowerMapGet flowers c.flowerId = some fl ∧
        c.quantity ≤ fl.stock) →
      ∃ items, buildOrderItems flowers cart = .ok items := by
  intro cart
  induction cart with
  | nil => exact fun _ => ⟨[], rfl⟩
  | cons c rest ih =>
      intro hall
      obtain ⟨fl, hlk, hle⟩ := hall c (by simp)
      obtain ⟨tail, htail⟩ := ih (fun x hx => hall x (List.mem_cons_of_mem _ hx))
      refine ⟨{ flowerId := fl.id, name := fl.name, unitPrice := fl.price,
                quantity := c.quantity,
                lineTotal := round2 (qmul fl.price c.quantity) } :: tail, ?_⟩
      simp only [buildOrderItems, hlk, htail, if_neg (not_lt.mpr hle)]

theorem buildOrderItems_error_of_insufficient (flowers : List Flower)
    (cart : List CartItem)
    (h : ∃ c ∈ cart, ∃ fl, flowerMapGet flowers c.flowerId = some fl ∧
      fl.stock < c.quantity) :
    ∃ r, buildOrderItems flowers cart = .error r := by
  cases hb : buildOrderItems flowers cart with
  | error r => exact ⟨r, rfl⟩
  | ok items =>
      exfalso
      obtain ⟨c, hc, fl, hlk, hst⟩ := h
      obtain ⟨hmap, hall⟩ := buildOrderItems_ok_spec flowers cart items hb
      have hpair : (c.flowerId, c.quantity) ∈
          items.map (fun i => (i.flowerId, i.quantity)) := by
        rw [hmap]
        exact List.mem_map_of_mem _ hc
      rcases List.mem_map.mp hpair with ⟨i, hi, hpe⟩
      obtain ⟨fl', hlk', hle, -⟩ := hall i hi
      have h1 : i.flowerId = c.flowerId := congrArg Prod.fst hpe
      have h2 : i.quantity = c.quantity := congrArg Prod.snd hpe
      rw [h1, hlk] at hlk'
      injection hlk' with he
      subst he
      omega

theorem buildOrderItems_conflict (flowers : List Flower) :
    ∀ cart : List CartItem,
      (∀ c ∈ cart, ∃ fl, flowerMapGet flowers c.flowerId = some fl) →
      (∃ c ∈ cart, ∃ fl, flowerMapGet flowers c.flowerId = some fl ∧
        fl.stock < c.quantity) →
      ∃ msg avail, buildOrderItems flowers cart = .error (.conflict msg avail) := by
  intro cart
  induction cart with
  | nil => rintro - ⟨c, hc, -⟩; cases hc
  | cons c rest ih =>
      rintro hall hins
      obtain ⟨fl, hlk⟩ := hall c (by simp)
      by_cases hst : fl.stock < c.quantity
      · exact ⟨"insufficient stock for " ++ fl.name, fl.stock,
          by simp [buildOrderItems, hlk, hst]⟩
      · have hrest : ∃ c' ∈ rest, ∃ fl', flowerMapGet flowers c'.flowerId = some fl' ∧
            fl'.stock < c'.quantity := by
          obtain ⟨c', hc', fl', hlk', hst'⟩ := hins
          rcases List.mem_cons.mp hc' with rfl | hm
          · rw [hlk] at hlk'
            injection hlk' with he
            subst he
            exact absurd hst' hst
          · exact ⟨c', hm, fl', hlk', hst'⟩
        obtain ⟨msg, avail, herr⟩ :=
          ih (fun x hx => hall x (List.mem_cons_of_mem _ hx)) hrest
        exact ⟨msg, avail, by simp [buildOrderItems, hlk, if_neg hst, herr]⟩

theorem hasInsufficient_iff (s : Store) (cart : List CartItem) :
    hasInsufficient s cart = true ↔
      ∃ c ∈ cart, ∃ fl, flowerMapGet s.flowers c.flowerId = some fl ∧
        fl.stock < c.quantity := by
  unfold hasInsufficient
  rw [List.any_eq_true]
  refine exists_congr fun c => and_congr_right fun _ => ?_
  cases hlk : flowerMapGet s.flowers c.flowerId <;> simp [hlk]

/-! ## Order handler unfolding lemmas -/

theorem postOrder_of_normalize_error {body : OrderBody} {s : Store} {newId msg : String}
    (h : normalizeOrderPayload body = .error msg) :
    postOrder s newId body = (s, .badRequest msg) := by
  simp [postOrder, h]

theorem postOrder_of_build_error {body : OrderBody} {s : Store} {newId : String}
    {payload : OrderPayload} {r : OrderResult}
    (hp : normalizeOrderPayload body = .ok payload)
    (hb : buildOrderItems s.flowers payload.items = .error r) :
    postOrder s newId body = (s, r) := by
  simp [postOrder, hp, hb]

theorem postOrder_of_build_ok {body : OrderBody} {s : Store} {newId : String}
    {payload : OrderPayload} {items : List OrderItem}
    (hp : normalizeOrderPayload body = .ok payload)
    (hb : buildOrderItems s.flowers payload.items = .ok items) :
    postOrder s newId body =
      ({ flowers := decrementStock s.flowers items,
         orders := s.orders ++
           [{ id := newId, customer := payload.customer,
              paymentMethod := payload.paymentMethod,
              paymentStatus := payload.paymentStatus, items := items,
              total := round2 (items.foldl (fun t i => qadd t i.lineTotal) 0) }] },
       .created
         { id := newId, customer := payload.customer,
           paymentMethod := payload.paymentMethod,
           paymentStatus := payload.paymentStatus, items := items,
           total := round2 (items.foldl (fun t i => qadd t i.lineTotal) 0) }) := by
  simp [postOrder, hp, hb]

/-! ## Payload normalization inversion lemmas -/

theorem normalizeOrderPayload_pending {body : OrderBody} {payload : OrderPayload}
    (h : normalizeOrderPayload body = .ok payload) :
    payload.paymentStatus = "pending" := by
  unfold normalizeOrderPayload at h
  repeat' split at h
  all_goals cases h
  rfl

theorem normalizeOrderPayload_items {body : OrderBody} {payload : OrderPayload}
    (h : normalizeOrderPayload body = .ok payload) :
    ∃ raw, body.items = some raw ∧ normalizeCartItems raw = .ok payload.items := by
  unfold normalizeOrderPayload at h
  repeat' split at h
  all_goals cases h
  rename_i x1 raw0 hraw0 hne v0 s0 hpm0 x0 cart0 hcart0
  exact ⟨raw0, hraw0, hcart0⟩

theorem normalizeOrderPayload_error_of_phone {body : OrderBody} {c : Customer}
    (hc : body.customer = some c)
    (hph : isValidPhone (jsTrim c.phone) = false) :
    ∃ msg, normalizeOrderPayload body = .error msg := by
  obtain ⟨cust, bitems, bpm⟩ := body
  change cust = some c at hc
  subst hc
  simp only [normalizeOrderPayload]
  split
  · exact ⟨_, rfl⟩
  split
  · exact ⟨_, rfl⟩
  have hcond : ¬ isValidPhone (jsTrim c.phone) = true := by simp [hph]
  rw [if_pos hcond]
  exact ⟨_, rfl⟩

/-! ## Bridge lemmas for the claim statements -/

theorem allStocksNonneg_iff (s : Store) :
    allStocksNonneg s = true ↔ ∀ f ∈ s.flowers, 0 ≤ f.stock := by
  simp [allStocksNonneg, List.all_eq_true]

theorem stockDelta_eq_pairQty :
    ∀ (items : List OrderItem) (fid : String),
      stockDelta items fid = pairQty (items.map fun i => (i.flowerId, i.quantity)) fid := by
  intro items fid
  induction items with
  | nil => rfl
  | cons i rest ih =>
      rw [stockDelta_cons, ih]
      by_cases h : i.flowerId = fid <;> simp [pairQty, List.filter_cons, h]

theorem cartQty_eq_pairQty :
    ∀ (cart : List CartItem) (fid : String),
      cartQty cart fid = pairQty (cart.map fun c => (c.flowerId, c.quantity)) fid := by
  intro cart fid
  induction cart with
  | nil => rfl
  | cons c rest ih =>
      rw [cartQty_cons, ih]
      by_cases h : c.flowerId = fid <;> simp [pairQty, List.filter_cons, h]

theorem stockDelta_eq_cartQty {items : List OrderItem} {cart : List CartItem}
    (hmap : items.map (fun i => (i.flowerId, i.quantity)) =
      cart.map (fun c => (c.flowerId, c.quantity))) (fid : String) :
    stockDelta items fid = cartQty cart fid := by
  rw [stockDelta_eq_pairQty, hmap, ← cartQty_eq_pairQty]

theorem buildOrderItems_error_not_created (flowers : List Flower) :
    ∀ (cart : List CartItem) (r : OrderResult),
      buildOrderItems flowers cart = .error r → r.isCreated = false := by
  intro cart
  induction cart with
  | nil => intro r h; simp [buildOrderItems] at h
  | cons c rest ih =>
      intro r h
      cases hlk : flowerMapGet flowers c.flowerId with
      | none =>
          simp only [buildOrderItems, hlk, Except.error.injEq] at h
          subst h; rfl
      | some fl =>
          by_cases hst : fl.stock < c.quantity
          · simp only [buildOrderItems, hlk, if_pos hst, Except.error.injEq] at h
            subst h; rfl
          · cases hrec : buildOrderItems flowers rest with
            | error r1 =>
                simp only [buildOrderItems, hlk, if_neg hst, hrec,
                  Except.error.injEq] at h
                subst h
                exact ih r1 hrec
            | ok tail =>
                simp [buildOrderItems, hlk, if_neg hst, hrec] at h

/-! ## Claim theorems: order creation -/

/-- C1: for every order-creation request against any well-formed store,
after the request completes every flower's stock is non-negative, and if
any merged line item's requested quantity exceeds the current stock of
its flower the whole order is rejected (no 201) with no flower's stock
modified. -/
theorem createOrder_stock_invariant (s : Store) (newId : String) (body : OrderBody)
    (hwf : s.WF) :
    allStocksNonneg (postOrder s newId body).1 = true ∧
    (∀ raw cart, body.items = some raw → normalizeCartItems raw = .ok cart →
      hasInsufficient s cart = true →
      (postOrder s newId body).1 = s ∧
      (postOrder s newId body).2.isCreated = false) := by
  constructor
  · rw [allStocksNonneg_iff]
    cases hn : normalizeOrderPayload body with
    | error msg =>
        rw [postOrder_of_normalize_error hn]
        exact hwf.1
    | ok payload =>
        cases hb : buildOrderItems s.flowers payload.items with
        | error r =>
            rw [postOrder_of_build_error hn hb]
            exact hwf.1
        | ok items =>
            rw [postOrder_of_build_ok hn hb]
            intro f' hf'
            obtain ⟨g, hg, rfl⟩ := mem_decrementStock hf'
            show 0 ≤ g.stock - stockDelta items g.id
            obtain ⟨hmap, hall⟩ := buildOrderItems_ok_spec s.flowers payload.items items hb
            obtain ⟨raw, hraw, hcart⟩ := normalizeOrderPayload_items hn
            have hndcart := normalizeCartItems_nodup hcart
            have hkeys : items.map OrderItem.flowerId =
                payload.items.map CartItem.flowerId := by
              have h2 := congrArg (List.map Prod.fst) hmap
              simpa [List.map_map, Function.comp] using h2
            have hnditems : (items.map OrderItem.flowerId).Nodup := by
              rw [hkeys]; exact hndcart
            by_cases hmem : g.id ∈ items.map OrderItem.flowerId
            · rcases List.mem_map.mp hmem with ⟨i, hi, hid⟩
              have hfilter := filter_key_singleton OrderItem.flowerId items hnditems i hi
              have hdelta : stockDelta items g.id = i.quantity := by
                unfold stockDelta
                rw [← hid, hfilter]
                simp
              rw [hdelta]
              obtain ⟨fl, hlk, hle, -⟩ := hall i hi
              have hself : flowerMapGet s.flowers g.id = some g :=
                flowerMapGet_self s.flowers hwf.2 g hg
              rw [hid, hself] at hlk
              injection hlk with he
              subst he
              omega
            · have hdelta : stockDelta items g.id = 0 := by
                unfold stockDelta
                rw [filter_key_eq_nil OrderItem.flowerId g.id items hmem]
                rfl
              rw [hdelta]
              have := hwf.1 g hg
              omega
  · intro raw cart hraw hcart hins
    cases hn : normalizeOrderPayload body with
    | error msg =>
        rw [postOrder_of_normalize_error hn]
        exact ⟨rfl, rfl⟩
    | ok payload =>
        obtain ⟨raw1, hraw1, hcart1⟩ := normalizeOrderPayload_items hn
        rw [hraw] at hraw1
        injection hraw1 with he
        subst he
        rw [hcart] at hcart1
        injection hcart1 with he2
        subst he2
        obtain ⟨r, hr⟩ := buildOrderItems_error_of_insufficient s.flowers payload.items
          ((hasInsufficient_iff s payload.items).mp hins)
        rw [postOrder_of_build_error hn hr]
        exact ⟨rfl, buildOrderItems_error_not_created s.flowers payload.items r hr⟩

/-- C1 witness: the fixture store is well-formed; an over-stock request
leaves all stocks non-negative, changes nothing and is not created. -/
theorem createOrder_stock_invariant_witness :
    storeC.WF ∧
    allStocksNonneg (postOrder storeC "o1" bodyOver).1 = true ∧
    (postOrder storeC "o1" bodyOver).1 = storeC ∧
    (postOrder storeC "o1" bodyOver).2.isCreated = false := by
  have h := createOrder_stock_invariant storeC "o1" bodyOver (by decide)
  have h2 := h.2 [⟨"f1", 99⟩] [⟨"f1", 99⟩] rfl (by decide) (by decide)
  exact ⟨by decide, h.1, h2.1, h2.2⟩

/-- C2: a valid order (payload normalizes, every merged line within
stock) is created: exactly one order record with payment status
"pending" is appended, and every flower's stock drops by exactly the
ordered quantity (unordered flowers are decremented by zero). -/
theorem createOrder_valid_success (s : Store) (newId : String) (body : OrderBody)
    (payload : OrderPayload)
    (hp : normalizeOrderPayload body = .ok payload)
    (havail : ∀ c ∈ payload.items, ∃ fl,
      flowerMapGet s.flowers c.flowerId = some fl ∧ c.quantity ≤ fl.stock) :
    ∃ order, (postOrder s newId body).2 = .created order ∧
      (postOrder s newId body).1.orders = s.orders ++ [order] ∧
      order.paymentStatus = "pending" ∧
      (postOrder s newId body).1.flowers =
        s.flowers.map (fun f => { f with stock := f.stock - cartQty payload.items f.id }) := by
  obtain ⟨items, hb⟩ := buildOrderItems_ok_of_all s.flowers payload.items havail
  have hpost := @postOrder_of_build_ok body s newId payload items hp hb
  have hmap := (buildOrderItems_ok_spec s.flowers payload.items items hb).1
  refine ⟨{ id := newId, customer := payload.customer,
            paymentMethod := payload.paymentMethod,
            paymentStatus := payload.paymentStatus, items := items,
            total := round2 (items.foldl (fun t i => qadd t i.lineTotal) 0) },
          ?_, ?_, ?_, ?_⟩
  · rw [hpost]
  · rw [hpost]
  · exact normalizeOrderPayload_pending hp
  · rw [hpost]
    show decrementStock s.flowers items = _
    rw [decrementStock_eq_map]
    refine List.map_congr_left fun f _ => ?_
    rw [stockDelta_eq_cartQty hmap]

/-- C2 witness: the fixture request is valid and the conclusions hold at
the fixture store. -/
theorem createOrder_valid_success_witness :
    normalizeOrderPayload bodyValid = .ok payloadValid ∧
    (∀ c ∈ payloadValid.items, ∃ fl,
      flowerMapGet storeC.flowers c.flowerId = some fl ∧ c.quantity ≤ fl.stock) ∧
    (∃ order, (postOrder storeC "o2" bodyValid).2 = .created order ∧
      (postOrder storeC "o2" bodyValid).1.orders = storeC.orders ++ [order] ∧
      order.paymentStatus = "pending" ∧
      (postOrder storeC "o2" bodyValid).1.flowers =
        storeC.flowers.map
          (fun f => { f with stock := f.stock - cartQty payloadValid.items f.id })) := by
  refine ⟨rfl, ?_, ?_⟩
  · intro c hc
    exact ⟨flowerF1, by cases hc with
      | head => exact ⟨rfl, by decide⟩
      | tail _ h => cases h⟩
  · exact createOrder_valid_success storeC "o2" bodyValid payloadValid rfl
      (fun c hc => by
        cases hc with
        | head => exact ⟨flowerF1, rfl, by decide⟩
        | tail _ h => cases h)

/-- C3 counterexample: a request whose second line item exceeds the
stock of the existing flower `f1` but whose first line item names an
unknown flower id is answered with 404, not 409, though the store is
still left unchanged. -/
theorem createOrder_conflict_counterexample :
    normalizeCartItems [(⟨"zzz", 1⟩ : RawCartItem), ⟨"f1", 99⟩] =
      .ok [⟨"zzz", 1⟩, ⟨"f1", 99⟩] ∧
    flowerMapGet storeC.flowers "f1" = some flowerF1 ∧ flowerF1.stock < 99 ∧
    postOrder storeC "o1" bodyMixed = (storeC, .notFound "flower not found: zzz") ∧
    (postOrder storeC "o1" bodyMixed).2.status ≠ 409 := by
  refine ⟨by decide, by decide, by decide, by decide, by decide⟩

/-- C3 amended: when the payload passes validation, every merged line
item's flower id exists, and some merged line item's quantity exceeds
that flower's stock, the request is answered 409 (conflict) with the
store unchanged. -/
theorem createOrder_conflict_amended (s : Store) (newId : String) (body : OrderBody)
    (payload : OrderPayload)
    (hp : normalizeOrderPayload body = .ok payload)
    (hex : ∀ c ∈ payload.items, ∃ fl, flowerMapGet s.flowers c.flowerId = some fl)
    (hins : hasInsufficient s payload.items = true) :
    ∃ msg avail, postOrder s newId body = (s, .conflict msg avail) := by
  obtain ⟨msg, avail, herr⟩ := buildOrderItems_conflict s.flowers payload.items hex
    ((hasInsufficient_iff s payload.items).mp hins)
  exact ⟨msg, avail, postOrder_of_build_error hp herr⟩

/-- C3 witness: the over-stock fixture request is answered 409 with the
store unchanged. -/
theorem createOrder_conflict_amended_witness :
    normalizeOrderPayload bodyOver = .ok payloadOver ∧
    hasInsufficient storeC payloadOver.items = true ∧
    ∃ msg avail, postOrder storeC "o4" bodyOver = (storeC, .conflict msg avail) := by
  refine ⟨rfl, by decide, ?_⟩
  exact createOrder_conflict_amended storeC "o4" bodyOver payloadOver rfl
    (fun c hc => by
      cases hc with
      | head => exact ⟨flowerF1, rfl⟩
      | tail _ h => cases h)
    (by decide)

/-- C4: merging of repeated flower ids: the merged cart has pairwise
distinct ids, each merged quantity is the sum of the submitted
quantities for that id, exactly the submitted (trimmed) ids appear, and
the order pipeline validates against exactly this merged cart. -/
theorem cartItems_merged (raw : List RawCartItem) (cart : List CartItem)
    (h : normalizeCartItems raw = .ok cart) :
    (cart.map CartItem.flowerId).Nodup ∧
    (∀ c ∈ cart, c.quantity = rawQtySum raw c.flowerId) ∧
    (∀ x, x ∈ cart.map CartItem.flowerId ↔ ∃ r ∈ raw, jsTrim r.flowerId = x) ∧
    (∀ body payload, body.items = some raw →
      normalizeOrderPayload body = .ok payload → payload.items = cart) := by
  have hnd := normalizeCartItems_nodup h
  refine ⟨hnd, ?_, mem_keys_normalizeCartItems h, ?_⟩
  · intro c hc
    rw [← cartQty_of_mem hnd hc]
    exact normalizeCartItems_qty h _
  · intro body payload hbi hp
    obtain ⟨raw1, hraw1, hcart1⟩ := normalizeOrderPayload_items hp
    rw [hbi] at hraw1
    injection hraw1 with he
    subst he
    rw [h] at hcart1
    injection hcart1 with he2
    exact he2.symm

/-- C4 witness: two lines for `f1` merge by summation ahead of a line
for `g1`, and the merged quantities are the sums. -/
theorem cartItems_merged_witness :
    normalizeCartItems [(⟨"f1", 2⟩ : RawCartItem), ⟨"f1", 3⟩, ⟨"g1", 1⟩] =
      .ok [⟨"f1", 5⟩, ⟨"g1", 1⟩] ∧
    (([(⟨"f1", 5⟩ : CartItem), ⟨"g1", 1⟩]).map CartItem.flowerId).Nodup ∧
    (∀ c ∈ [(⟨"f1", 5⟩ : CartItem), ⟨"g1", 1⟩],
      c.quantity = rawQtySum [(⟨"f1", 2⟩ : RawCartItem), ⟨"f1", 3⟩, ⟨"g1", 1⟩] c.flowerId) := by
  have h := cartItems_merged [(⟨"f1", 2⟩ : RawCartItem), ⟨"f1", 3⟩, ⟨"g1", 1⟩]
    [⟨"f1", 5⟩, ⟨"g1", 1⟩] (by decide)
  exact ⟨by decide, h.1, h.2.1⟩

/-- C5: an order body whose customer phone fails `isValidPhone` is
rejected 400 with the store (hence every flower's stock) unchanged. -/
theorem createOrder_invalid_phone (s : Store) (newId : String) (body : OrderBody)
    (c : Customer) (hc : body.customer = some c)
    (hph : isValidPhone (jsTrim c.phone) = false) :
    ∃ msg, postOrder s newId body = (s, .badRequest msg) := by
  obtain ⟨msg, hmsg⟩ := normalizeOrderPayload_error_of_phone hc hph
  exact ⟨msg, postOrder_of_normalize_error hmsg⟩

/-- C5 witness: the three-digit phone fixture is rejected with the store
unchanged. -/
theorem createOrder_invalid_phone_witness :
    bodyBadPhone.customer = some customerBadPhone ∧
    isValidPhone (jsTrim customerBadPhone.phone) = false ∧
    ∃ msg, postOrder storeC "o5" bodyBadPhone = (storeC, .badRequest msg) := by
  exact ⟨rfl, by decide,
    createOrder_invalid_phone storeC "o5" bodyBadPhone customerBadPhone rfl (by decide)⟩

/-! ## Claim theorems: price/name snapshot (C6) -/

theorem applyFlowerOp_orders (s : Store) (op : FlowerOp) :
    (applyFlowerOp s op).orders = s.orders := by
  cases op with
  | update fid u =>
      simp only [applyFlowerOp]
      split <;> rfl
  | remove fid =>
      simp only [applyFlowerOp]
      split <;> rfl

theorem applyFlowerOps_orders (ops : List FlowerOp) :
    ∀ s : Store, (applyFlowerOps s ops).orders = s.orders := by
  induction ops with
  | nil => intro s; rfl
  | cons op rest ih =>
      intro s
      calc (applyFlowerOps s (op :: rest)).orders
          = (applyFlowerOps (applyFlowerOp s op) rest).orders := rfl
        _ = (applyFlowerOp s op).orders := ih _
        _ = s.orders := applyFlowerOp_orders s op

theorem postOrder_created_inv {s : Store} {newId : String} {body : OrderBody}
    {s1 : Store} {order : Order}
    (h : postOrder s newId body = (s1, .created order)) :
    ∃ payload items, normalizeOrderPayload body = .ok payload ∧
      buildOrderItems s.flowers payload.items = .ok items ∧
      order.items = items ∧ s1.orders = s.orders ++ [order] := by
  cases hn : normalizeOrderPayload body with
  | error msg =>
      rw [postOrder_of_normalize_error hn] at h
      injection h with h1 h2
      cases h2
  | ok payload =>
      cases hb : buildOrderItems s.flowers payload.items with
      | error r =>
          rw [postOrder_of_build_error hn hb] at h
          injection h with h1 h2
          have := buildOrderItems_error_not_created s.flowers payload.items r hb
          rw [h2] at this
          cases this
      | ok items =>
          rw [postOrder_of_build_ok hn hb] at h
          injection h with h1 h2
          injection h2 with h3
          refine ⟨payload, items, rfl, hb, ?_, ?_⟩
          · rw [← h3]
          · rw [← h1, ← h3]

/-- C6: line items of a created order snapshot the flower's name and
unit price at creation time, and no later sequence of flower update or
delete operations changes any recorded order: the orders list survives
verbatim, so the created order and its items are exactly as recorded. -/
theorem orderSnapshot_immutable (s : Store) (newId : String) (body : OrderBody)
    (s1 : Store) (order : Order)
    (hpost : postOrder s newId body = (s1, .created order))
    (ops : List FlowerOp) :
    (applyFlowerOps s1 ops).orders = s1.orders ∧
    order ∈ (applyFlowerOps s1 ops).orders ∧
    ∀ item ∈ order.items, ∃ fl, flowerMapGet s.flowers item.flowerId = some fl ∧
      item.name = fl.name ∧ item.unitPrice = fl.price := by
  obtain ⟨payload, items, hn, hb, hitems, horders⟩ := postOrder_created_inv hpost
  refine ⟨applyFlowerOps_orders ops s1, ?_, ?_⟩
  · rw [applyFlowerOps_orders ops s1, horders]
    simp
  · intro item hitem
    rw [hitems] at hitem
    obtain ⟨fl, hlk, -, hname, hprice, -⟩ :=
      (buildOrderItems_ok_spec s.flowers payload.items items hb).2 item hitem
    exact ⟨fl, hlk, hname, hprice⟩

/-- C6 witness: the fixture order's snapshot survives a price/name patch
and a delete of the purchased flower. -/
theorem orderSnapshot_immutable_witness :
    postOrder storeC "o6" bodyValid = (storeAfterValid, .created orderW) ∧
    ((applyFlowerOps storeAfterValid opsW).orders = storeAfterValid.orders ∧
     orderW ∈ (applyFlowerOps storeAfterValid opsW).orders ∧
     ∀ item ∈ orderW.items, ∃ fl, flowerMapGet storeC.flowers item.flowerId = some fl ∧
       item.name = fl.name ∧ item.unitPrice = fl.price) := by
  exact ⟨by decide,
    orderSnapshot_immutable storeC "o6" bodyValid storeAfterValid orderW (by decide) opsW⟩

/-! ## Claim theorems: flower creation validation (C8) -/

theorem normalizeFlowerCreatePayload_ok_valid {newId : String}
    {body : FlowerCreateBody} {flower : Flower}
    (h : normalizeFlowerCreatePayload newId body = .ok flower) :
    priceInvalid body = false ∧ stockInvalid body = false ∧
    occasionInvalid body = false := by
  unfold normalizeFlowerCreatePayload at h
  repeat' split at h
  all_goals cases h
  refine ⟨?_, ?_, ?_⟩ <;>
    simp_all [priceInvalid, stockInvalid, occasionInvalid]

/-- C8: a flower-creation payload whose price is not a positive finite
number, whose (defaulted) stock is not an integer between 0 and 10000,
or whose (defaulted) occasion is outside the allowed vocabulary, is
rejected with a validation error (400) and the store is unchanged: no
flower is added. -/
theorem createFlower_validation (s : Store) (newId : String) (body : FlowerCreateBody)
    (hbad : priceInvalid body = true ∨ stockInvalid body = true ∨
      occasionInvalid body = true) :
    ∃ msg, postFlower s newId body = (s, .badRequest msg) := by
  cases hn : normalizeFlowerCreatePayload newId body with
  | error msg => exact ⟨msg, by simp [postFlower, hn]⟩
  | ok flower =>
      exfalso
      obtain ⟨h1, h2, h3⟩ := normalizeFlowerCreatePayload_ok_valid hn
      rcases hbad with hb | hb | hb <;> simp_all

/-- C8 witness: a zero price, an over-bound stock and a disallowed
occasion are each rejected with the fixture store unchanged. -/
theorem createFlower_validation_witness :
    priceInvalid bodyBadPrice = true ∧
    stockInvalid bodyBadStock = true ∧
    occasionInvalid bodyBadOccasion = true ∧
    (∃ msg, postFlower storeC "n1" bodyBadPrice = (storeC, .badRequest msg)) ∧
    (∃ msg, postFlower storeC "n2" bodyBadStock = (storeC, .badRequest msg)) ∧
    (∃ msg, postFlower storeC "n3" bodyBadOccasion = (storeC, .badRequest msg)) := by
  refine ⟨by decide, by decide, by decide, ?_, ?_, ?_⟩
  · exact createFlower_validation storeC "n1" bodyBadPrice (Or.inl (by decide))
  · exact createFlower_validation storeC "n2" bodyBadStock (Or.inr (Or.inl (by decide)))
  · exact createFlower_validation storeC "n3" bodyBadOccasion (Or.inr (Or.inr (by decide)))

/-! ## Claim theorems: chat (C9) -/

theorem containsSubList_append_right (n : List Char) :
    ∀ (a b : List Char), containsSubList n b = true → containsSubList n (a ++ b) = true := by
  intro a
  induction a with
  | nil => intro b h; simpa using h
  | cons c a ih =>
      intro b h
      simp only [List.cons_append, containsSubList]
      show (n.isPrefixOf (c :: (a ++ b)) || containsSubList n (a ++ b)) = true
      rw [ih b h, Bool.or_true]

theorem containsStr_append_right (a b n : String) (h : containsStr b n = true) :
    containsStr (a ++ b) n = true := by
  unfold containsStr at h ⊢
  rw [String.data_append]
  exact containsSubList_append_right _ _ _ h

theorem containsStr_dollarHead (x : String) :
    containsStr (" at $" ++ x) "$" = true := by
  unfold containsStr
  rw [String.data_append]
  show containsSubList ['$'] (' ' :: 'a' :: 't' :: ' ' :: '$' :: x.data) = true
  simp [containsSubList, List.isPrefixOf]

theorem mentionsPrice_budget (name p2 : String) :
    mentionsPrice ("Our current budget-friendly option is " ++ (name ++ (" at $" ++
      (p2 ++ ". I can also suggest options by occasion.")))) = true := by
  have h2 := containsStr_append_right "Our current budget-friendly option is "
    (name ++ (" at $" ++ (p2 ++ ". I can also suggest options by occasion."))) "$"
    (containsStr_append_right name
      (" at $" ++ (p2 ++ ". I can also suggest options by occasion.")) "$"
      (containsStr_dollarHead (p2 ++ ". I can also suggest options by occasion.")))
  simp [mentionsPrice, h2]

/-- C9 counterexample: "pay cheap" matches the pricing keywords, the
handler (with no API key) replies with source "local", but the payment
rule fires first and its reply mentions neither price nor a dollar
amount. -/
theorem chat_pricing_counterexample :
    matchesAny (jsToLower "pay cheap") pricingKeywords = true ∧
    generateChatReply "" none "pay cheap" storeC.flowers =
      ("You can checkout with Cash on Delivery or PayPal. Orders are created as Pending, then payment status can be updated by admin.",
       "local") ∧
    mentionsPrice
      "You can checkout with Cash on Delivery or PayPal. Orders are created as Pending, then payment status can be updated by admin." =
      false := by
  exact ⟨by decide, by decide, by decide⟩

/-- C9 (amended): an empty or whitespace-only chat message is rejected
with a validation error; and a message matching the pricing keywords and
none of the earlier keyword groups (greeting, delivery, payment), with
no external text-generation service configured, yields a reply with
source "local" whose text mentions price/pricing or a dollar amount. -/
theorem chat_empty_and_pricing_local (body : ChatBody) (flowers : List Flower)
    (apiKey : String) (externalReply : Option String) (message : String) :
    (jsTrim (body.message.getD "") = "" →
      postChat apiKey externalReply flowers body = .badRequest "message is required") ∧
    (jsTrim apiKey = "" →
      matchesAny (jsToLower message) pricingKeywords = true →
      matchesAny (jsToLower message) greetingKeywords = false →
      matchesAny (jsToLower message) deliveryKeywords = false →
      matchesAny (jsToLower message) paymentKeywords = false →
      (generateChatReply apiKey externalReply message flowers).2 = "local" ∧
      mentionsPrice (generateChatReply apiKey externalReply message flowers).1 = true) := by
  constructor
  · intro hempty
    simp [postChat, normalizeChatPayload, hempty]
  · intro hkey hpr hg hd hp
    have hno : requestOpenAiChatReply apiKey externalReply = none := by
      simp [requestOpenAiChatReply, hkey]
    constructor
    · simp [generateChatReply, hno]
    · simp only [generateChatReply, hno]
      show mentionsPrice (buildLocalChatReply message flowers) = true
      unfold buildLocalChatReply
      rw [if_neg (by simp [hg]), if_neg (by simp [hd]), if_neg (by simp [hp]),
        if_pos hpr]
      cases hch : cheapestFlower (inStockFlowers flowers) with
      | none => decide
      | some f => exact mentionsPrice_budget f.name (ratToFixed2 f.price)

/-- C9 witness: a whitespace message is rejected; "cheap" with no API
key yields a local reply mentioning a price, both with and without
in-stock flowers. -/
theorem chat_empty_and_pricing_local_witness :
    jsTrim "   " = "" ∧
    postChat "" none storeC.flowers ⟨some "   ", none⟩ =
      .badRequest "message is required" ∧
    (generateChatReply "" none "cheap" storeC.flowers).2 = "local" ∧
    mentionsPrice (generateChatReply "" none "cheap" storeC.flowers).1 = true ∧
    (generateChatReply "" none "cheap" []).2 = "local" ∧
    mentionsPrice (generateChatReply "" none "cheap" []).1 = true := by
  have h1 := (chat_empty_and_pricing_local ⟨some "   ", none⟩ storeC.flowers "" none "cheap").1
    (by decide)
  have h2 := (chat_empty_and_pricing_local ⟨some "   ", none⟩ storeC.flowers "" none "cheap").2
    (by decide) (by decide) (by decide) (by decide) (by decide)
  have h3 := (chat_empty_and_pricing_local ⟨some "   ", none⟩ [] "" none "cheap").2
    (by decide) (by decide) (by decide) (by decide) (by decide)
  exact ⟨by decide, h1, h2.1, h2.2, h3.1, h3.2⟩

/-! ## Claim theorems: sessions (C7, C10) -/

theorem splitOnChar_no_sep (sep : Char) :
    ∀ (l : List Char), (∀ c ∈ l, c ≠ sep) → splitOnChar sep l = [l] := by
  intro l
  induction l with
  | nil => intro _; rfl
  | cons c rest ih =>
      intro h
      have hc : c ≠ sep := h c (by simp)
      have hr := ih (fun d hd => h d (List.mem_cons_of_mem _ hd))
      simp only [splitOnChar, hr, if_neg hc]

theorem splitOnChar_append (sep : Char) :
    ∀ (l rest : List Char), (∀ c ∈ l, c ≠ sep) →
      splitOnChar sep (l ++ sep :: rest) = l :: splitOnChar sep rest := by
  intro l
  induction l with
  | nil => intro rest _; simp [splitOnChar]
  | cons c l ih =>
      intro rest h
      have hc : c ≠ sep := h c (by simp)
      have hr := ih rest (fun d hd => h d (List.mem_cons_of_mem _ hd))
      simp only [List.cons_append, splitOnChar, if_neg hc]
      show (match splitOnChar sep (l ++ sep :: rest) with
            | [] => [[c]]
            | p :: ps => (c :: p) :: ps) = (c :: l) :: splitOnChar sep rest
      rw [hr]

theorem splitOnChar_token (b s : List Char)
    (hb : ∀ c ∈ b, c ≠ '.') (hs : ∀ c ∈ s, c ≠ '.') :
    splitOnChar '.' ((jwtHeader ++ '.' :: b) ++ '.' :: s) = [jwtHeader, b, s] := by
  have hh : ∀ c ∈ jwtHeader, c ≠ '.' := by decide
  rw [List.append_assoc, List.cons_append,
    splitOnChar_append '.' jwtHeader (b ++ '.' :: s) hh,
    splitOnChar_append '.' b s hb, splitOnChar_no_sep '.' s hs]

/-- C10: sign/verify round trip and rejection.  A token signed over an
encoded payload with a dot-free body and signature verifies back to the
original payload whenever the codec inverts on it and its expiry lies in
the future; any token whose signature differs from the MAC of its
`header.body` under the current secret verifies to nothing; and any
token whose decoded body has an absent, zero (falsy) or past expiry
verifies to nothing. -/
theorem signVerify_roundtrip
    (mac : List Char → List Char → List Char)
    (encodeSession : SessionPayload → List Char)
    (decodeSession : List Char → Option SessionPayload)
    (secret : List Char) (now : Int) (hnow : 0 ≤ now) :
    (∀ p e, decodeSession (encodeSession p) = some p → p.exp = some e → now < e →
      (∀ c ∈ encodeSession p, c ≠ '.') →
      (∀ c ∈ mac secret (jwtHeader ++ '.' :: encodeSession p), c ≠ '.') →
      verifyToken mac decodeSession secret now
        (some (signToken mac encodeSession secret p)) = some p) ∧
    (∀ t hd b sig, splitOnChar '.' t = [hd, b, sig] →
      sig ≠ mac secret (hd ++ '.' :: b) →
      verifyToken mac decodeSession secret now (some t) = none) ∧
    (∀ t hd b sig payload, splitOnChar '.' t = [hd, b, sig] →
      decodeSession b = some payload →
      (payload.exp = none ∨ payload.exp = some 0 ∨
        ∃ e, payload.exp = some e ∧ e < now) →
      verifyToken mac decodeSession secret now (some t) = none) := by
  refine ⟨?_, ?_, ?_⟩
  · intro p e hdec hexp hlt hb hm
    simp only [signToken, verifyToken,
      splitOnChar_token (encodeSession p)
        (mac secret (jwtHeader ++ '.' :: encodeSession p)) hb hm]
    have hsig : ¬(mac secret (jwtHeader ++ '.' :: encodeSession p) ≠
        mac secret (jwtHeader ++ '.' :: encodeSession p)) := fun hne => hne rfl
    rw [if_neg hsig, hdec]
    have hok : expOk (some e) now = true := by
      have h1 : (e == 0) = false := by
        rw [beq_eq_false_iff_ne]
        omega
      have h2 : decide (e < now) = false := by
        rw [decide_eq_false_iff_not]
        omega
      simp [expOk, h1, h2]
    simp only [hexp, hok]
    simp
  · intro t hd b sig hsplit hne
    simp only [verifyToken, hsplit]
    rw [if_pos hne]
  · intro t hd b sig payload hsplit hdec hbad
    simp only [verifyToken, hsplit]
    by_cases hsig : sig = mac secret (hd ++ '.' :: b)
    · rw [if_neg (not_not_intro hsig), hdec]
      have hko : expOk payload.exp now = false := by
        rcases hbad with h0 | h0 | ⟨e, he, hlt⟩
        · simp [expOk, h0]
        · simp [expOk, h0]
        · simp [expOk, he, hlt]
      simp only [hko]
      simp
    · rw [if_pos hsig]

/-- C10 witness: the fixture codec/MAC instances exhibit the round trip,
a rejected forged signature and a rejected expired token. -/
theorem signVerify_roundtrip_witness :
    (0 : Int) ≤ 200 ∧
    verifyToken macW decodeW "k".data 200
      (some (signToken macW encodeW "k".data payloadW)) = some payloadW ∧
    verifyToken macW decodeW "k".data 200 (some "a.b.x".data) = none ∧
    verifyToken macW decodeW "k".data 200
      (some (signToken macW encodeW "k".data payloadExpiredW)) = none := by
  have h := signVerify_roundtrip macW encodeW decodeW "k".data 200 (by decide)
  refine ⟨by decide, ?_, ?_, ?_⟩
  · exact h.1 payloadW 300 (by decide) rfl (by decide) (by decide) (by decide)
  · exact h.2.1 "a.b.x".data "a".data "b".data "x".data (by decide) (by decide)
  · exact h.2.2 (signToken macW encodeW "k".data payloadExpiredW) jwtHeader
      (['c']) (macW "k".data (jwtHeader ++ '.' :: ['c'])) payloadExpiredW
      (by decide) (by decide) (Or.inr (Or.inr ⟨100, rfl, by decide⟩))

/-- C7: with authentication configured, a role-gated request without a
verifiable unexpired session is denied 401; one whose session role is
outside the allowed set is denied 403; and one whose role is allowed
proceeds with that user. -/
theorem requireRole_gate
    (mac : List Char → List Char → List Char)
    (decodeSession : List Char → Option SessionPayload)
    (secret : List Char) (now : Int) (cookie : Option (List Char))
    (allowedRoles : List String) :
    (verifyToken mac decodeSession secret now cookie = none →
      requireRole mac decodeSession true secret now cookie allowedRoles =
        .denied 401 "authentication required") ∧
    (∀ p, verifyToken mac decodeSession secret now cookie = some p →
      (allowedRoles.contains p.role = false →
        requireRole mac decodeSession true secret now cookie allowedRoles =
          .denied 403 "insufficient permissions") ∧
      (allowedRoles.contains p.role = true →
        requireRole mac decodeSession true secret now cookie allowedRoles =
          .allowed ⟨p.sub, p.email, p.role⟩)) := by
  constructor
  · intro hv
    simp [requireRole, getSessionUser, hv]
  · intro p hv
    constructor
    · intro hrole
      have h1 : p.role ∉ allowedRoles := by simpa using hrole
      simp [requireRole, getSessionUser, hv, h1]
    · intro hrole
      have h1 : p.role ∈ allowedRoles := by simpa using hrole
      simp [requireRole, getSessionUser, hv, h1]

/-- C7 witness: no cookie is denied 401; a valid admin session passes an
admin gate and is denied 403 by a customer-only gate. -/
theorem requireRole_gate_witness :
    verifyToken macW decodeW "k".data 200 none = none ∧
    requireRole macW decodeW true "k".data 200 none ["admin"] =
      .denied 401 "authentication required" ∧
    requireRole macW decodeW true "k".data 200
      (some (signToken macW encodeW "k".data payloadW)) ["admin"] =
      .allowed ⟨"admin-1", "admin@zaamiflower.com", "admin"⟩ ∧
    requireRole macW decodeW true "k".data 200
      (some (signToken macW encodeW "k".data payloadW)) ["customer"] =
      .denied 403 "insufficient permissions" := by
  refine ⟨by decide, ?_, ?_, ?_⟩
  · exact (requireRole_gate macW decodeW "k".data 200 none ["admin"]).1 (by decide)
  · exact ((requireRole_gate macW decodeW "k".data 200
      (some (signToken macW encodeW "k".data payloadW)) ["admin"]).2 payloadW
      (by decide)).2 (by decide)
  · exact ((requireRole_gate macW decodeW "k".data 200
      (some (signToken macW encodeW "k".data payloadW)) ["customer"]).2 payloadW
      (by decide)).1 (by decide)

end ZaamiFlower
